import Mathlib

/-!
Verification of the Game Session & Statistics Subsystem (`src/db/db_funcs.py`
and `src/db/models/settings.py`): a shallow embedding of the relational store
and the session/statistics operations, with theorems settling the spec claims.

External collaborators (engine-evaluation service, limits/defaults service,
wall clock) are passed in as explicit function parameters, matching §6 of the
spec which treats them as interfaces only.
-/

namespace ChessStats

/-- Modelled from the spec: the evaluation-service result record
(`EngineEvaluation` in `src/utils/chess_api/dataclasses`, not under `src/`):
`evaluate(position) -> {value: signed int, end_type, is_end: bool,
who_win: "w"|"b"|absent, wdl: (win,draw,loss) triple}`. -/
structure EngineEvaluation where
  value : Int
  end_type : String
  is_end : Bool
  who_win : Option String
  wdl : Int × Int × Int
deriving Repr, DecidableEq

/-- Modelled from the spec: the `User` row (model file not under `src/`):
opaque id, display name, creation timestamp, cumulative counters starting
at zero on creation. Counter reads/writes below follow `db_funcs.py`. -/
structure User where
  user_id : Nat
  name : String
  created_time : Nat
  total_games : Nat := 0
  total_wins : Nat := 0
  total_defeats : Nat := 0
  total_draws : Nat := 0
deriving Repr, DecidableEq

/-- Modelled from the spec: the `Game` row (model file not under `src/`):
orientation, `is_active` flag, move history, position `fen`, terminal
outcome `who_win`. Field defaults give a fresh session empty history and
the standard starting position, per §4.3. -/
structure Game where
  user_id : Nat
  orientation : String
  is_active : Bool
  prev_moves : String := ""
  last_move : String := ""
  check : Option String := none
  fen : String := "rnbqkbnr/pppppppp/8/8/8/8/PPPPPPPP/RNBQKBNR w KQkq - 0 1"
  who_win : Option String := none
deriving Repr, DecidableEq

/-- The `Settings` row (`src/db/models/settings.py`): one per user; the
tunable engine/board parameters are kept abstractly as a map from parameter
name to value, since `update_settings` manipulates them generically via
`values(**params)`. -/
structure SettingsRow where
  user_id : Nat
  params : String → Int

/-- The relational store: the three tables the subsystem reads and writes. -/
structure Store where
  users : List User
  settings : List SettingsRow
  games : List Game

/-- `get_user` (`db_funcs.py` lines 60-70): `SELECT` the first `User` row
with the given id. -/
def get_user (s : Store) (user_id : Nat) : Option User :=
  s.users.find? fun u => u.user_id == user_id

/-- `get_settings` (`db_funcs.py` lines 73-83). -/
def get_settings (s : Store) (user_id : Nat) : Option SettingsRow :=
  s.settings.find? fun row => row.user_id == user_id

/-- `get_current_game` (`db_funcs.py` lines 86-100): the first `Game` row of
the user with `is_active = true`. -/
def get_current_game (s : Store) (user_id : Nat) : Option Game :=
  s.games.find? fun g => g.user_id == user_id && g.is_active

/-- `create_new_user` (`db_funcs.py` lines 12-29): if the user exists, do
nothing; otherwise insert a `User` row and a `Settings` row. The settings
params come from the external defaults service (`Settings.async_init` in
`src/db/models/settings.py` merges `get_defaults()` with the constructor
kwargs, which here carry only `user_id`). `now` is the creation timestamp
supplied by the database default. -/
def create_new_user (defaults : String → Int) (now : Nat) (s : Store)
    (user_id : Nat) (name : String) : Store :=
  match get_user s user_id with
  | some _ => s
  | none =>
    { s with
      users := s.users ++ [{ user_id := user_id, name := name, created_time := now }],
      settings := s.settings ++ [{ user_id := user_id, params := defaults }] }

/-- The winner-resolution branching of `stop_current_game`
(`db_funcs.py` lines 120-127), factored out verbatim. -/
def resolveWinner (is_resign : Bool) (orientation : String)
    (evaluation : EngineEvaluation) : Option String :=
  if is_resign then
    some (if orientation == "b" then "w" else "b")
  else if evaluation.is_end then
    evaluation.who_win
  else if evaluation.end_type == "checkmate" then
    some (if evaluation.value > 0 then "w" else "b")
  else
    none

/-- The `UPDATE Game ... SET is_active = false, who_win = ...` statement of
`stop_current_game` (`db_funcs.py` lines 130-137): every active row of the
user is deactivated with the resolved winner recorded. -/
def stopGamesUpdate (who_win : Option String) (user_id : Nat)
    (games : List Game) : List Game :=
  games.map fun g =>
    if g.user_id == user_id && g.is_active then
      { g with is_active := false, who_win := who_win }
    else g

/-- The counter recomputation of `stop_current_game`
(`db_funcs.py` lines 142-161), applied to the pre-read `user` row. Python's
`game.orientation == who_win` compares a `str` with an `Optional[str]`, so
it holds exactly when `who_win` is present and equal to the orientation. -/
def stopUserUpdate (game : Game) (who_win : Option String) (user : User) :
    User :=
  { user with
    total_games := user.total_games + 1,
    total_wins :=
      if who_win == some game.orientation then user.total_wins + 1
      else user.total_wins,
    total_defeats :=
      if who_win.isSome && who_win != some game.orientation then
        user.total_defeats + 1
      else user.total_defeats,
    total_draws :=
      if who_win == none then user.total_draws + 1
      else user.total_draws }

/-- `stop_current_game` (`db_funcs.py` lines 103-164). `evalSvc` is the
external engine-evaluation service (`get_engine_evaluation`), a function of
the position `fen`. Result:
* `none` — the Python code crashes (it dereferences a missing `User` row
  while a game is active); the transaction aborts, the store is unchanged;
* `some (none, s)` — no active game: return `None`, store untouched;
* `some (some (evaluation, who_win), s1)` — success: all active `Game` rows
  of the user are deactivated with `who_win` recorded, and the user's
  counters are updated in the same transaction. -/
def stop_current_game (evalSvc : String → EngineEvaluation) (s : Store)
    (user_id : Nat) (is_resign : Bool) :
    Option (Option (EngineEvaluation × Option String) × Store) :=
  match get_current_game s user_id with
  | none => some (none, s)
  | some game =>
    let evaluation := evalSvc game.fen
    let who_win := resolveWinner is_resign game.orientation evaluation
    match get_user s user_id with
    | none => none
    | some user =>
      some (some (evaluation, who_win),
        { s with
          games := stopGamesUpdate who_win user_id s.games,
          users := s.users.map fun u =>
            if u.user_id == user_id then stopUserUpdate game who_win user
            else u })

/-- `create_new_game` (`db_funcs.py` lines 32-57): validate the orientation,
stop any current game as a resignation, then insert a fresh active row.
Result: `none` — crash propagated from `stop_current_game`;
`some (.error msg, s)` — `ValueError`, store untouched;
`some (.ok b, s1)` — success, `b` reports whether an old game was stopped. -/
def create_new_game (evalSvc : String → EngineEvaluation) (s : Store)
    (user_id : Nat) (orientation : String) :
    Option (Except String Bool × Store) :=
  if orientation != "w" && orientation != "b" then
    some (.error "orientation must be w or b", s)
  else
    match stop_current_game evalSvc s user_id true with
    | none => none
    | some (res, s1) =>
      let game : Game :=
        { user_id := user_id, orientation := orientation, is_active := true }
      some (.ok res.isSome, { s1 with games := s1.games ++ [game] })

/-- `update_current_game` (`db_funcs.py` lines 167-201): overwrite the
history/position fields of the user's active rows; `none` when there is no
active game. -/
def update_current_game (s : Store) (user_id : Nat) (prev_moves : String)
    (last_move : String) (check : Option String) (fen : String) :
    Option Bool × Store :=
  match get_current_game s user_id with
  | none => (none, s)
  | some _ =>
    (some true,
      { s with
        games := s.games.map fun g =>
          if g.user_id == user_id && g.is_active then
            { g with prev_moves := prev_moves, fen := fen,
                     last_move := last_move, check := check }
          else g })

/-- The per-parameter clamping step of `update_settings`
(`db_funcs.py` lines 214-223): `max(min(v, limits[k]["max"]), limits[k]["min"])`,
with a `KeyError` (parameter absent from the limits response) leaving the
value untouched. `limits` is the external limits service response. -/
def clampParam (limits : String → Option (Int × Int)) (kv : String × Int) :
    String × Int :=
  match limits kv.1 with
  | some (lo, hi) => (kv.1, max (min kv.2 hi) lo)
  | none => kv

/-- `update_settings` (`db_funcs.py` lines 204-233): clamp every supplied
parameter against the limits response, apply the clamped map to the user's
`Settings` row as a single update, and return the clamped map. -/
def update_settings (limits : String → Option (Int × Int)) (s : Store)
    (user_id : Nat) (params : List (String × Int)) :
    List (String × Int) × Store :=
  let clamped := params.map (clampParam limits)
  (clamped,
    { s with
      settings := s.settings.map fun row =>
        if row.user_id == user_id then
          { row with params := fun k =>
              match clamped.find? (fun kv => kv.1 == k) with
              | some kv => kv.2
              | none => row.params k }
        else row })

/-- Python's `round` (banker's rounding, half to even) on an exact rational. -/
def pythonRound (q : ℚ) : ℤ :=
  let f := ⌊q⌋
  if q - f < 1/2 then f
  else if 1/2 < q - f then f + 1
  else if f % 2 = 0 then f else f + 1

/-- One leaderboard entry: the data interpolated into each line of
`get_global_statistic`'s message. -/
structure StatEntry where
  name : String
  user_id : Nat
  total_wins : Nat
  total_draws : Nat
  total_defeats : Nat
  total_games : Nat
  win_rate : Int
deriving Repr, DecidableEq

/-- The `ORDER BY desc(total_wins), created_time` comparator of
`get_global_statistic` (`db_funcs.py` lines 243-248). -/
def leUser (a b : User) : Bool :=
  Nat.blt b.total_wins a.total_wins ||
    (a.total_wins == b.total_wins && Nat.ble a.created_time b.created_time)

/-- The per-user entry computation of `get_global_statistic`
(`db_funcs.py` lines 252-261): counters plus
`round(total_wins / (total_games or 1) * 100)`. -/
def mkStatEntry (user : User) : StatEntry :=
  { name := user.name, user_id := user.user_id,
    total_wins := user.total_wins, total_draws := user.total_draws,
    total_defeats := user.total_defeats, total_games := user.total_games,
    win_rate := pythonRound ((user.total_wins : ℚ) /
      (if user.total_games = 0 then 1 else (user.total_games : ℚ)) * 100) }

/-- `get_global_statistic` (`db_funcs.py` lines 236-269), data part: the top
`topN` users by wins (ties by earlier creation time), each rendered to its
entry. The Markdown line formatting and the cache decorator around it are
presentation and timing, not data. -/
def get_global_statistic (topN : Nat) (s : Store) : List StatEntry :=
  ((s.users.mergeSort leUser).take topN).map mkStatEntry

/-- Number of active `Game` rows of one user: the quantity the
at-most-one-active invariant bounds. -/
def countActive (s : Store) (user_id : Nat) : Nat :=
  s.games.countP fun g => g.user_id == user_id && g.is_active

/-- The central consistency invariant (§3 of the spec): at most one active
game per user. -/
def Inv (s : Store) : Prop :=
  ∀ u : Nat, countActive s u ≤ 1

/-! ### Helper lemmas -/

theorem find?_map_of_pred {α : Type} (l : List α) (f : α → α) (p : α → Bool)
    (hp : ∀ x, p (f x) = p x) : (l.map f).find? p = (l.find? p).map f := by
  have h : p ∘ f = p := funext hp
  rw [List.find?_map, h]

theorem countP_map_of_pred {α : Type} (l : List α) (f : α → α) (p : α → Bool)
    (hp : ∀ x, p (f x) = p x) : (l.map f).countP p = l.countP p := by
  have h : p ∘ f = p := funext hp
  rw [List.countP_map, h]

/-- Unfolding `stop_current_game` in the no-active-game case. -/
theorem stop_eq_of_no_game (evalSvc : String → EngineEvaluation) {s : Store}
    {u : Nat} (is_resign : Bool) (hg : get_current_game s u = none) :
    stop_current_game evalSvc s u is_resign = some (none, s) := by
  unfold stop_current_game
  rw [hg]

/-- Unfolding `stop_current_game` in the success case. -/
theorem stop_eq_of_active (evalSvc : String → EngineEvaluation) {s : Store}
    {u : Nat} (is_resign : Bool) {game : Game} {user : User}
    (hg : get_current_game s u = some game) (hu : get_user s u = some user) :
    stop_current_game evalSvc s u is_resign =
      some (some (evalSvc game.fen,
          resolveWinner is_resign game.orientation (evalSvc game.fen)),
        { s with
          games := stopGamesUpdate
            (resolveWinner is_resign game.orientation (evalSvc game.fen))
            u s.games,
          users := s.users.map fun x =>
            if x.user_id == u then
              stopUserUpdate game
                (resolveWinner is_resign game.orientation (evalSvc game.fen))
                user
            else x }) := by
  unfold stop_current_game
  rw [hg, hu]

/-- A game matching no active-row predicate survives `stopGamesUpdate`
untouched; an active row of the stopped user comes out deactivated. -/
theorem countActive_stopGamesUpdate (who_win : Option String) (u : Nat)
    (games : List Game) :
    (stopGamesUpdate who_win u games).countP
        (fun g => g.user_id == u && g.is_active) = 0 ∧
    ∀ v, v ≠ u →
      (stopGamesUpdate who_win u games).countP
          (fun g => g.user_id == v && g.is_active) =
        games.countP (fun g => g.user_id == v && g.is_active) := by
  constructor
  · rw [stopGamesUpdate, List.countP_map, List.countP_eq_zero]
    intro g _
    by_cases hcond : (g.user_id == u && g.is_active) = true
    · simp only [Function.comp_apply, if_pos hcond]
      simp
    · simp only [Function.comp_apply, if_neg hcond]
      simpa using hcond
  · intro v hv
    rw [stopGamesUpdate, List.countP_map]
    apply List.countP_congr
    intro g _
    by_cases hcond : (g.user_id == u && g.is_active) = true
    · have hgu : g.user_id = u := by
        simp only [Bool.and_eq_true, beq_iff_eq] at hcond
        exact hcond.1
      simp only [Function.comp_apply, if_pos hcond]
      simp [hgu, Ne.symm hv]
    · simp only [Function.comp_apply, if_neg hcond]

/-- Unfolding `stop_current_game` in the crash case: an active game whose
user row is missing makes the Python code dereference `None`. -/
theorem stop_eq_of_crash (evalSvc : String → EngineEvaluation) {s : Store}
    {u : Nat} (is_resign : Bool) {game : Game}
    (hg : get_current_game s u = some game) (hu : get_user s u = none) :
    stop_current_game evalSvc s u is_resign = none := by
  unfold stop_current_game
  rw [hg, hu]

/-- Unfolding `update_current_game` in the no-active-game case. -/
theorem update_eq_of_no_game (s : Store) (u : Nat)
    (prev_moves last_move fen : String) (check : Option String)
    (hg : get_current_game s u = none) :
    update_current_game s u prev_moves last_move check fen = (none, s) := by
  unfold update_current_game
  rw [hg]

/-- Unfolding `update_current_game` in the active case. -/
theorem update_eq_of_active (s : Store) (u : Nat)
    (prev_moves last_move fen : String) (check : Option String) {game : Game}
    (hg : get_current_game s u = some game) :
    update_current_game s u prev_moves last_move check fen =
      (some true,
        { s with games := s.games.map fun g =>
            if g.user_id == u && g.is_active then
              { g with prev_moves := prev_moves, fen := fen,
                       last_move := last_move, check := check }
            else g }) := by
  unfold update_current_game
  rw [hg]

/-- A user without a current game has no active rows at all. -/
theorem countActive_eq_zero_of_none {s : Store} {u : Nat}
    (hg : get_current_game s u = none) : countActive s u = 0 := by
  rw [countActive, List.countP_eq_zero]
  have hnone : ∀ x ∈ s.games, x.user_id = u → x.is_active = false := by
    simpa [get_current_game] using hg
  intro g hgmem
  simp only [Bool.and_eq_true, beq_iff_eq, not_and, Bool.not_eq_true]
  intro hgu
  exact hnone g hgmem hgu

/-- Appending one game row adds its own contribution to the active count. -/
theorem countActive_mk_append (usersL : List User)
    (settingsL : List SettingsRow) (gamesL : List Game) (g0 : Game)
    (v : Nat) :
    countActive
        { users := usersL, settings := settingsL, games := gamesL ++ [g0] } v =
      gamesL.countP (fun g => g.user_id == v && g.is_active) +
      (if g0.user_id == v && g0.is_active then 1 else 0) := by
  simp [countActive, List.countP_append, List.countP_cons]

/-- After a successful `stop_current_game`, the stopped user has no active
row left, and no other user's active count moved. -/
theorem stop_countActive (evalSvc : String → EngineEvaluation) {s : Store}
    {u : Nat} {is_resign : Bool} {res} {s1 : Store}
    (h : stop_current_game evalSvc s u is_resign = some (res, s1)) :
    countActive s1 u = 0 ∧ ∀ v, v ≠ u → countActive s1 v = countActive s v := by
  cases hg : get_current_game s u with
  | none =>
    rw [stop_eq_of_no_game evalSvc is_resign hg] at h
    simp only [Option.some.injEq, Prod.mk.injEq] at h
    obtain ⟨-, rfl⟩ := h
    exact ⟨countActive_eq_zero_of_none hg, fun v _ => rfl⟩
  | some game =>
    cases hu : get_user s u with
    | none =>
      rw [stop_eq_of_crash evalSvc is_resign hg hu] at h
      exact absurd h (by simp)
    | some user =>
      rw [stop_eq_of_active evalSvc is_resign hg hu] at h
      simp only [Option.some.injEq, Prod.mk.injEq] at h
      obtain ⟨-, rfl⟩ := h
      exact ⟨(countActive_stopGamesUpdate _ u s.games).1,
        fun v hv => (countActive_stopGamesUpdate _ u s.games).2 v hv⟩

/-- Case analysis on a completed `create_new_game` call: either the
orientation was rejected and the store is untouched, or the old session was
stopped (as a resignation) and a fresh active row was appended. -/
theorem create_cases (evalSvc : String → EngineEvaluation) (s : Store)
    (u : Nat) (orientation : String) (res : Except String Bool) (s1 : Store)
    (h : create_new_game evalSvc s u orientation = some (res, s1)) :
    (res = .error "orientation must be w or b" ∧ s1 = s) ∨
    (∃ res0 s0, stop_current_game evalSvc s u true = some (res0, s0) ∧
      res = .ok res0.isSome ∧
      s1 = { s0 with games := s0.games ++
        [{ user_id := u, orientation := orientation, is_active := true }] }) := by
  unfold create_new_game at h
  by_cases horient : (orientation != "w" && orientation != "b") = true
  · rw [if_pos horient] at h
    simp only [Option.some.injEq, Prod.mk.injEq] at h
    exact Or.inl ⟨h.1.symm, h.2.symm⟩
  · rw [if_neg horient] at h
    cases hstop : stop_current_game evalSvc s u true with
    | none =>
      rw [hstop] at h
      exact absurd h (by simp)
    | some pair =>
      obtain ⟨res0, s0⟩ := pair
      rw [hstop] at h
      simp only [Option.some.injEq, Prod.mk.injEq] at h
      exact Or.inr ⟨res0, s0, rfl, h.1.symm, h.2.symm⟩

/-- A valid orientation sails past the validation check of
`create_new_game`. -/
theorem create_eq_of_valid (evalSvc : String → EngineEvaluation) (s : Store)
    (u : Nat) (orientation : String)
    (ho : orientation = "w" ∨ orientation = "b")
    {res0 : Option (EngineEvaluation × Option String)} {s0 : Store}
    (hstop : stop_current_game evalSvc s u true = some (res0, s0)) :
    create_new_game evalSvc s u orientation =
      some (.ok res0.isSome, { s0 with games := s0.games ++
        [{ user_id := u, orientation := orientation, is_active := true }] }) := by
  have horient : (orientation != "w" && orientation != "b") = false := by
    rcases ho with rfl | rfl <;> rfl
  unfold create_new_game
  rw [horient, hstop]
  rfl

/-- Reading the user back out of the store left by a successful
`stop_current_game` yields exactly the recomputed counter row. -/
theorem get_user_after_stop (s : Store) (u : Nat) (game : Game)
    (who_win : Option String) (user : User)
    (hu : get_user s u = some user) :
    get_user
      { s with games := stopGamesUpdate who_win u s.games,
               users := s.users.map fun x =>
                 if x.user_id == u then stopUserUpdate game who_win user
                 else x }
      u = some (stopUserUpdate game who_win user) := by
  have hfind : s.users.find? (fun x => x.user_id == u) = some user := by
    simpa [get_user] using hu
  have huid : user.user_id = u := by
    have := List.find?_some hfind
    simpa using this
  rw [get_user]
  show (s.users.map fun x =>
      if x.user_id == u then stopUserUpdate game who_win user else x).find?
      (fun x => x.user_id == u) = _
  rw [find?_map_of_pred]
  · rw [hfind]
    simp [huid]
  · intro x
    by_cases hx : (x.user_id == u) = true
    · simp [hx, stopUserUpdate, huid]
    · simp [hx]

/-! ### Concrete sample data used by the witnesses -/

/-- A constant evaluation service: a quiet, non-terminal position. -/
def evalSvc0 : String → EngineEvaluation :=
  fun _ => { value := 0, end_type := "cp", is_end := false,
             who_win := none, wdl := (0, 0, 0) }

/-- The user of the spec's §8 scenario: counters `(3, 1, 0, 4)`. -/
def user7 : User :=
  { user_id := 7, name := "alice", created_time := 1,
    total_games := 4, total_wins := 3, total_defeats := 1, total_draws := 0 }

/-- An active game of `user7`, playing white. -/
def game7 : Game :=
  { user_id := 7, orientation := "w", is_active := true }

/-- A store with one user and one active game. -/
def store7 : Store :=
  { users := [user7], settings := [], games := [game7] }

theorem inv_store7 : Inv store7 :=
  fun _ => le_trans (List.countP_le_length _) (by simp [store7])

/-- `user7` after a resignation loss: counters `(3, 2, 0, 5)`, matching the
spec's §8 scenario. -/
def user7after : User :=
  { user7 with total_games := 5, total_defeats := 2 }

/-- `store7` after `stop_current_game evalSvc0 store7 7 true`: the game is
settled as a resignation loss, the counters advance to `(3, 2, 0, 5)`. -/
def store7stopped : Store :=
  { users := [user7after],
    settings := [],
    games := [{ game7 with is_active := false, who_win := some "b" }] }

/-! ### Claim theorems -/

/-- C3: `stop_current_game` resolves the winner by priority: resignation
forces a loss for the player's color whatever the evaluation says; else a
terminal evaluation's reported winner stands (absent means draw); else a
`checkmate` end-type maps a positive value to white and a negative value to
black; else there is no winner. -/
theorem resolveWinner_priority (orientation : String)
    (evaluation : EngineEvaluation) :
    (∀ ev : EngineEvaluation, orientation = "w" →
        resolveWinner true orientation ev = some "b") ∧
    (∀ ev : EngineEvaluation, orientation = "b" →
        resolveWinner true orientation ev = some "w") ∧
    (evaluation.is_end = true →
        resolveWinner false orientation evaluation = evaluation.who_win) ∧
    (evaluation.is_end = false → evaluation.end_type = "checkmate" →
        0 < evaluation.value →
        resolveWinner false orientation evaluation = some "w") ∧
    (evaluation.is_end = false → evaluation.end_type = "checkmate" →
        evaluation.value < 0 →
        resolveWinner false orientation evaluation = some "b") ∧
    (evaluation.is_end = false → evaluation.end_type ≠ "checkmate" →
        resolveWinner false orientation evaluation = none) := by
  refine ⟨?_, ?_, ?_, ?_, ?_, ?_⟩
  · intro ev ho; subst ho; simp [resolveWinner]
  · intro ev ho; subst ho; simp [resolveWinner]
  · intro hend; simp [resolveWinner, hend]
  · intro hend htype hval
    simp [resolveWinner, hend, htype, hval]
  · intro hend htype hval
    have : ¬ (0 : Int) < evaluation.value := by omega
    simp [resolveWinner, hend, htype, this]
  · intro hend htype
    simp [resolveWinner, hend, htype]

/-- C3 witness: the spec's §8 scenario (`end_type="checkmate"`,
`is_end=false`, `value=-7`, player white) resolves to black, and a white
player's resignation resolves to black regardless of that evaluation. -/
theorem resolveWinner_priority_witness :
    (EngineEvaluation.mk (-7) "checkmate" false none (0, 0, 0)).is_end = false ∧
    (EngineEvaluation.mk (-7) "checkmate" false none (0, 0, 0)).end_type = "checkmate" ∧
    (EngineEvaluation.mk (-7) "checkmate" false none (0, 0, 0)).value < 0 ∧
    resolveWinner false "w"
      (EngineEvaluation.mk (-7) "checkmate" false none (0, 0, 0)) = some "b" ∧
    resolveWinner true "w"
      (EngineEvaluation.mk (-7) "checkmate" false none (0, 0, 0)) = some "b" :=
  ⟨rfl, rfl, by decide,
    (resolveWinner_priority "w"
      (EngineEvaluation.mk (-7) "checkmate" false none (0, 0, 0))).2.2.2.2.1
      rfl rfl (by decide),
    (resolveWinner_priority "w"
      (EngineEvaluation.mk (-7) "checkmate" false none (0, 0, 0))).1
      (EngineEvaluation.mk (-7) "checkmate" false none (0, 0, 0)) rfl⟩

/-- C4: `stop_current_game` on a user with no active game returns the
absent signal and leaves the store (rows and counters) untouched. -/
theorem stop_no_active_game_noop (evalSvc : String → EngineEvaluation)
    (s : Store) (u : Nat) (is_resign : Bool)
    (hg : get_current_game s u = none) :
    stop_current_game evalSvc s u is_resign = some (none, s) :=
  stop_eq_of_no_game evalSvc is_resign hg

/-- C4 witness: user 8 has no active game in `store7`; stopping returns the
absent signal with the store unchanged. -/
theorem stop_no_active_game_noop_witness :
    get_current_game store7 8 = none ∧
    stop_current_game evalSvc0 store7 8 false = some (none, store7) :=
  ⟨rfl, stop_no_active_game_noop evalSvc0 store7 8 false rfl⟩

/-- C5: `create_new_game` with an orientation other than `"w"`/`"b"` fails
with a validation error and returns the store unchanged: no row is created,
no session stopped, no counter modified. -/
theorem create_new_game_invalid_orientation
    (evalSvc : String → EngineEvaluation) (s : Store) (u : Nat)
    (orientation : String) (hw : orientation ≠ "w") (hb : orientation ≠ "b") :
    create_new_game evalSvc s u orientation =
      some (.error "orientation must be w or b", s) := by
  unfold create_new_game
  simp [hw, hb]

/-- C1: at most one active game per user is preserved by every operation:
`create_new_game`, `update_current_game` and `stop_current_game` each map a
store satisfying the invariant to one that still satisfies it, and
`create_new_game` first deactivates every active row of the user (via the
resignation stop) before the new active row is inserted. -/
theorem at_most_one_active_preserved (evalSvc : String → EngineEvaluation)
    (s : Store) (u : Nat) (orientation prev_moves last_move fen : String)
    (check : Option String) (is_resign : Bool) (hInv : Inv s) :
    (∀ res s1, create_new_game evalSvc s u orientation = some (res, s1) →
      Inv s1) ∧
    (∀ res s1, update_current_game s u prev_moves last_move check fen =
        (res, s1) → Inv s1) ∧
    (∀ res s1, stop_current_game evalSvc s u is_resign = some (res, s1) →
      Inv s1) ∧
    (∀ b s1, create_new_game evalSvc s u orientation = some (.ok b, s1) →
      ∃ res0 s0, stop_current_game evalSvc s u true = some (res0, s0) ∧
        countActive s0 u = 0 ∧
        s1.games = s0.games ++
          [{ user_id := u, orientation := orientation, is_active := true }]) := by
  refine ⟨?_, ?_, ?_, ?_⟩
  · intro res s1 h
    rcases create_cases evalSvc s u orientation res s1 h with
      ⟨-, rfl⟩ | ⟨res0, s0, hstop, -, rfl⟩
    · exact hInv
    · obtain ⟨h0, hother⟩ := stop_countActive evalSvc hstop
      rw [countActive] at h0
      simp only [countActive] at hother
      intro v
      rw [countActive_mk_append]
      by_cases hv : v = u
      · subst hv
        rw [h0]
        simp
      · rw [hother v hv]
        have hne : (u == v && true) = false := by
          simp
          exact fun hcon => absurd hcon.symm hv
        rw [hne, if_neg (by simp)]
        have hs := hInv v
        rw [countActive] at hs
        omega
  · intro res s1 h v
    cases hg : get_current_game s u with
    | none =>
      rw [update_eq_of_no_game s u prev_moves last_move fen check hg] at h
      simp only [Prod.mk.injEq] at h
      obtain ⟨-, rfl⟩ := h
      exact hInv v
    | some game =>
      rw [update_eq_of_active s u prev_moves last_move fen check hg] at h
      simp only [Prod.mk.injEq] at h
      obtain ⟨-, rfl⟩ := h
      simp only [countActive]
      rw [countP_map_of_pred]
      · exact hInv v
      · intro g
        by_cases hcond : (g.user_id == u && g.is_active) = true <;>
          simp [hcond]
  · intro res s1 h
    obtain ⟨h0, hother⟩ := stop_countActive evalSvc h
    intro v
    by_cases hv : v = u
    · subst hv
      rw [h0]
      omega
    · rw [hother v hv]
      exact hInv v
  · intro b s1 h
    rcases create_cases evalSvc s u orientation (.ok b) s1 h with
      ⟨herr, -⟩ | ⟨res0, s0, hstop, -, rfl⟩
    · exact Except.noConfusion herr
    · exact ⟨res0, s0, hstop, (stop_countActive evalSvc hstop).1, rfl⟩

/-- `store7` after `create_new_game evalSvc0 store7 8 "b"`: user 8 had no
active game, so only the fresh row is appended. -/
def store7b : Store :=
  { users := [user7], settings := [],
    games := [game7, { user_id := 8, orientation := "b", is_active := true }] }

/-- C1 witness: `store7` satisfies the invariant, and so does the store
left by `create_new_game` for user 8. -/
theorem at_most_one_active_preserved_witness :
    Inv store7 ∧ Inv store7b :=
  ⟨inv_store7,
    (at_most_one_active_preserved evalSvc0 store7 8 "b" "" "" "" none false
      inv_store7).1 (.ok false) store7b rfl⟩

/-- C6: for a registered user and a valid orientation, `create_new_game`
reports displacement exactly when an active row existed just before the
call, and leaves exactly one active row for the user, carrying the given
orientation. -/
theorem create_new_game_one_active (evalSvc : String → EngineEvaluation)
    (s : Store) (u : Nat) (orientation : String) (user : User)
    (ho : orientation = "w" ∨ orientation = "b")
    (hu : get_user s u = some user) :
    ∀ res s1, create_new_game evalSvc s u orientation = some (res, s1) →
      res = .ok (get_current_game s u).isSome ∧
      countActive s1 u = 1 ∧
      ∀ g ∈ s1.games, g.user_id = u → g.is_active = true →
        g.orientation = orientation := by
  intro res s1 h
  cases hg : get_current_game s u with
  | none =>
    rw [create_eq_of_valid evalSvc s u orientation ho
      (stop_eq_of_no_game evalSvc true hg)] at h
    simp only [Option.some.injEq, Prod.mk.injEq] at h
    obtain ⟨hres, rfl⟩ := h
    refine ⟨hres.symm, ?_, ?_⟩
    · have hz := countActive_eq_zero_of_none hg
      rw [countActive] at hz
      rw [countActive_mk_append, hz]
      simp
    · intro g hgmem hgu hga
      rcases List.mem_append.mp hgmem with hleft | hright
      · have hnone : ∀ x ∈ s.games, x.user_id = u → x.is_active = false := by
          simpa [get_current_game] using hg
        exact absurd (hnone g hleft hgu) (by rw [hga]; simp)
      · rw [List.mem_singleton.mp hright]
  | some game =>
    rw [create_eq_of_valid evalSvc s u orientation ho
      (stop_eq_of_active evalSvc true hg hu)] at h
    simp only [Option.some.injEq, Prod.mk.injEq] at h
    obtain ⟨hres, rfl⟩ := h
    refine ⟨hres.symm, ?_, ?_⟩
    · rw [countActive_mk_append,
        (countActive_stopGamesUpdate
          (resolveWinner true game.orientation (evalSvc game.fen)) u s.games).1]
      simp
    · intro g hgmem hgu hga
      rcases List.mem_append.mp hgmem with hleft | hright
      · have hzero := (countActive_stopGamesUpdate
          (resolveWinner true game.orientation (evalSvc game.fen)) u s.games).1
        have hnot := List.countP_eq_zero.mp hzero g hleft
        exact absurd hnot (by simp [hgu, hga])
      · rw [List.mem_singleton.mp hright]

/-- `store7` after `create_new_game evalSvc0 store7 7 "b"`: the old white
game is settled as a resignation loss (counters `(3, 2, 0, 5)`) and a fresh
active black game is appended. -/
def store7restarted : Store :=
  { users := [user7after],
    settings := [],
    games := [{ game7 with is_active := false, who_win := some "b" },
              { user_id := 7, orientation := "b", is_active := true }] }

/-- C6 witness: restarting over an active game on `store7` reports
displacement and leaves exactly one active row. -/
theorem create_new_game_one_active_witness :
    ("b" = "w" ∨ "b" = "b") ∧
    get_user store7 7 = some user7 ∧
    (Except.ok true : Except String Bool) =
      .ok (get_current_game store7 7).isSome ∧
    countActive store7restarted 7 = 1 :=
  ⟨Or.inr rfl, rfl,
    (create_new_game_one_active evalSvc0 store7 7 "b" user7 (Or.inr rfl) rfl
      (.ok true) store7restarted rfl).1,
    (create_new_game_one_active evalSvc0 store7 7 "b" user7 (Or.inr rfl) rfl
      (.ok true) store7restarted rfl).2.1⟩

/-- C5 witness: `create_new_game` at orientation `"x"` on `store7`. -/
theorem create_new_game_invalid_orientation_witness :
    "x" ≠ "w" ∧ "x" ≠ "b" ∧
    create_new_game evalSvc0 store7 7 "x" =
      some (.error "orientation must be w or b", store7) :=
  ⟨by decide, by decide,
    create_new_game_invalid_orientation evalSvc0 store7 7 "x"
      (by decide) (by decide)⟩

/-- C2: stopping an active game bumps `total_games` by one and exactly one
of `total_wins` (winner equals the orientation), `total_defeats` (winner
present and different) or `total_draws` (no winner), leaving the other two
counters unchanged; hence `total_games = wins + defeats + draws` is
preserved. -/
theorem stop_current_game_counters (evalSvc : String → EngineEvaluation)
    (s : Store) (u : Nat) (is_resign : Bool) (game : Game) (user : User)
    (hg : get_current_game s u = some game)
    (hu : get_user s u = some user) :
    ∀ res s1, stop_current_game evalSvc s u is_resign = some (res, s1) →
      res = some (evalSvc game.fen,
        resolveWinner is_resign game.orientation (evalSvc game.fen)) ∧
      ∀ user1, get_user s1 u = some user1 →
        user1.total_games = user.total_games + 1 ∧
        ((resolveWinner is_resign game.orientation (evalSvc game.fen) =
              some game.orientation ∧
            user1.total_wins = user.total_wins + 1 ∧
            user1.total_defeats = user.total_defeats ∧
            user1.total_draws = user.total_draws) ∨
         (resolveWinner is_resign game.orientation (evalSvc game.fen) ≠
              none ∧
            resolveWinner is_resign game.orientation (evalSvc game.fen) ≠
              some game.orientation ∧
            user1.total_defeats = user.total_defeats + 1 ∧
            user1.total_wins = user.total_wins ∧
            user1.total_draws = user.total_draws) ∨
         (resolveWinner is_resign game.orientation (evalSvc game.fen) =
              none ∧
            user1.total_draws = user.total_draws + 1 ∧
            user1.total_wins = user.total_wins ∧
            user1.total_defeats = user.total_defeats)) ∧
        (user.total_games =
            user.total_wins + user.total_defeats + user.total_draws →
          user1.total_games =
            user1.total_wins + user1.total_defeats + user1.total_draws) := by
  intro res s1 h
  rw [stop_eq_of_active evalSvc is_resign hg hu] at h
  simp only [Option.some.injEq, Prod.mk.injEq] at h
  obtain ⟨hres, rfl⟩ := h
  refine ⟨hres.symm, ?_⟩
  intro user1 hu1
  rw [get_user_after_stop s u game _ user hu] at hu1
  injection hu1 with hu1
  subst hu1
  cases hww : resolveWinner is_resign game.orientation (evalSvc game.fen) with
  | none =>
    refine ⟨by simp [stopUserUpdate], Or.inr (Or.inr ⟨rfl, ?_, ?_, ?_⟩), ?_⟩
    · simp [stopUserUpdate]
    · simp [stopUserUpdate]
    · simp [stopUserUpdate]
    · intro hsum
      simp only [stopUserUpdate]
      simp
      omega
  | some w =>
    by_cases hwo : w = game.orientation
    · subst hwo
      refine ⟨by simp [stopUserUpdate], Or.inl ⟨rfl, ?_, ?_, ?_⟩, ?_⟩
      · simp [stopUserUpdate]
      · simp [stopUserUpdate]
      · simp [stopUserUpdate]
      · intro hsum
        simp only [stopUserUpdate]
        simp
        omega
    · refine ⟨by simp [stopUserUpdate],
        Or.inr (Or.inl ⟨by simp, by simp [hwo], ?_, ?_, ?_⟩), ?_⟩
      · simp [stopUserUpdate, hwo]
      · simp [stopUserUpdate, hwo]
      · simp [stopUserUpdate]
      · intro hsum
        simp only [stopUserUpdate]
        simp [hwo]
        omega

/-- C2 witness: the spec's §8 scenario on `store7` — counters `(3,1,0,4)`,
orientation white, resignation — advance to `(3,2,0,5)` with the sum
invariant intact. -/
theorem stop_current_game_counters_witness :
    get_current_game store7 7 = some game7 ∧
    get_user store7 7 = some user7 ∧
    get_user store7stopped 7 = some user7after ∧
    user7after.total_games = user7.total_games + 1 ∧
    (user7.total_games =
        user7.total_wins + user7.total_defeats + user7.total_draws →
      user7after.total_games =
        user7after.total_wins + user7after.total_defeats +
          user7after.total_draws) :=
  ⟨rfl, rfl, rfl,
    ((stop_current_game_counters evalSvc0 store7 7 true game7 user7 rfl rfl
      (some (evalSvc0 game7.fen, some "b")) store7stopped rfl).2
      user7after rfl).1,
    ((stop_current_game_counters evalSvc0 store7 7 true game7 user7 rfl rfl
      (some (evalSvc0 game7.fen, some "b")) store7stopped rfl).2
      user7after rfl).2.2⟩

/-- C10: when `create_new_game` displaces an active game, the displaced
game is settled as a resignation loss before the new row is inserted: the
evaluation service is consulted on the displaced game's position, the
displaced row ends inactive with `who_win` the color opposite the user's
orientation, and the user gains one `total_games` and one `total_defeats`
with wins and draws untouched. -/
theorem create_new_game_settles_old_as_loss
    (evalSvc : String → EngineEvaluation) (s : Store) (u : Nat)
    (orientation : String) (game : Game) (user : User)
    (ho : orientation = "w" ∨ orientation = "b")
    (hg : get_current_game s u = some game)
    (hu : get_user s u = some user) :
    ∀ res0 s0, stop_current_game evalSvc s u true = some (res0, s0) →
    ∀ res1 s1, create_new_game evalSvc s u orientation = some (res1, s1) →
      res0 = some (evalSvc game.fen,
        some (if game.orientation == "b" then "w" else "b")) ∧
      res1 = .ok true ∧
      s1.games = s0.games ++
        [{ user_id := u, orientation := orientation, is_active := true }] ∧
      ({ game with
          is_active := false,
          who_win := some (if game.orientation == "b" then "w" else "b") }
        ∈ s0.games) ∧
      get_user s0 u = some { user with
          total_games := user.total_games + 1,
          total_defeats := user.total_defeats + 1 } := by
  intro res0 s0 h0 res1 s1 h1
  have hww : resolveWinner true game.orientation (evalSvc game.fen) =
      some (if game.orientation == "b" then "w" else "b") := by
    simp [resolveWinner]
  have hopp : ((if game.orientation = "b" then "w" else "b") : String) ≠
      game.orientation := by
    by_cases hb : game.orientation = "b"
    · rw [if_pos hb, hb]
      decide
    · rw [if_neg hb]
      exact fun hcon => hb hcon.symm
  rw [stop_eq_of_active evalSvc true hg hu] at h0
  simp only [Option.some.injEq, Prod.mk.injEq] at h0
  obtain ⟨hres0, rfl⟩ := h0
  rw [create_eq_of_valid evalSvc s u orientation ho
    (stop_eq_of_active evalSvc true hg hu)] at h1
  simp only [Option.some.injEq, Prod.mk.injEq] at h1
  obtain ⟨hres1, rfl⟩ := h1
  have hfindg : s.games.find?
      (fun g => g.user_id == u && g.is_active) = some game := by
    simpa [get_current_game] using hg
  have hmem : game ∈ s.games := List.mem_of_find?_eq_some hfindg
  have hp : (game.user_id == u && game.is_active) = true := by
    have h2 := List.find?_some hfindg
    exact h2
  refine ⟨?_, hres1.symm, rfl, ?_, ?_⟩
  · rw [← hres0, hww]
  · show _ ∈ stopGamesUpdate
      (resolveWinner true game.orientation (evalSvc game.fen)) u s.games
    rw [stopGamesUpdate]
    refine List.mem_map.mpr ⟨game, hmem, ?_⟩
    rw [if_pos hp, hww]
  · rw [get_user_after_stop s u game _ user hu]
    rw [hww]
    simp [stopUserUpdate, hopp]

/-- `user7` after losing by displacement: same counters as a resignation. -/
theorem create_new_game_settles_old_as_loss_witness :
    ("b" = "w" ∨ "b" = "b") ∧
    get_current_game store7 7 = some game7 ∧
    get_user store7 7 = some user7 ∧
    ({ game7 with
        is_active := false,
        who_win := some (if game7.orientation == "b" then "w" else "b") }
      ∈ store7stopped.games) ∧
    get_user store7stopped 7 = some { user7 with
        total_games := user7.total_games + 1,
        total_defeats := user7.total_defeats + 1 } :=
  ⟨Or.inr rfl, rfl, rfl,
    (create_new_game_settles_old_as_loss evalSvc0 store7 7 "b" game7 user7
      (Or.inr rfl) rfl rfl
      (some (evalSvc0 game7.fen, some "b")) store7stopped rfl
      (.ok true) store7restarted rfl).2.2.2.1,
    (create_new_game_settles_old_as_loss evalSvc0 store7 7 "b" game7 user7
      (Or.inr rfl) rfl rfl
      (some (evalSvc0 game7.fen, some "b")) store7stopped rfl
      (.ok true) store7restarted rfl).2.2.2.2⟩

/-- Reading back a user just inserted by `create_new_user`. -/
theorem get_user_append_of_none {s : Store} {u : Nat}
    (newU : User) (newS : SettingsRow) (h0 : get_user s u = none)
    (hid : (newU.user_id == u) = true) :
    get_user { s with users := s.users ++ [newU],
                      settings := s.settings ++ [newS] } u = some newU := by
  rw [get_user]
  show (s.users ++ [newU]).find? (fun x => x.user_id == u) = _
  rw [List.find?_append,
    show s.users.find? (fun x => x.user_id == u) = none from by
      simpa [get_user] using h0]
  simp [hid]

/-- Reading the user's settings row back out of the store after a
row-preserving rewrite of the settings table. -/
theorem get_settings_after_update (s : Store) (u : Nat)
    (fRow : SettingsRow → SettingsRow)
    (hf : ∀ x, (fRow x).user_id = x.user_id)
    (row : SettingsRow) (hrow : get_settings s u = some row) :
    get_settings { s with settings := s.settings.map fRow } u =
      some (fRow row) := by
  rw [get_settings]
  show (s.settings.map fRow).find? (fun x => x.user_id == u) = _
  rw [find?_map_of_pred]
  · rw [show s.settings.find? (fun x => x.user_id == u) = some row from by
      simpa [get_settings] using hrow]
    rfl
  · intro x
    simp [hf]

/-- C9: `create_new_user` is idempotent: on an existing id it is a no-op
raising no error; on a fresh id it inserts exactly one `User` row and one
`Settings` row (populated from the defaults service) in the same unit of
work; a second call with the same id changes nothing. -/
theorem create_new_user_idempotent (defaults : String → Int)
    (now now2 : Nat) (s : Store) (user_id : Nat) (name name2 : String) :
    (∀ user0, get_user s user_id = some user0 →
        create_new_user defaults now s user_id name = s) ∧
    (get_user s user_id = none →
        (create_new_user defaults now s user_id name).users =
          s.users ++
            [{ user_id := user_id, name := name, created_time := now }] ∧
        (create_new_user defaults now s user_id name).settings =
          s.settings ++ [{ user_id := user_id, params := defaults }] ∧
        (create_new_user defaults now s user_id name).games = s.games) ∧
    create_new_user defaults now2
        (create_new_user defaults now s user_id name) user_id name2 =
      create_new_user defaults now s user_id name := by
  refine ⟨?_, ?_, ?_⟩
  · intro user0 h0
    unfold create_new_user
    rw [h0]
  · intro h0
    unfold create_new_user
    rw [h0]
    exact ⟨rfl, rfl, rfl⟩
  · cases h0 : get_user s user_id with
    | some user0 =>
      have h1 : create_new_user defaults now s user_id name = s := by
        unfold create_new_user
        rw [h0]
      rw [h1]
      unfold create_new_user
      rw [h0]
    | none =>
      have h1 : create_new_user defaults now s user_id name =
          { s with
            users := s.users ++
              [{ user_id := user_id, name := name, created_time := now }],
            settings := s.settings ++
              [{ user_id := user_id, params := defaults }] } := by
        unfold create_new_user
        rw [h0]
      rw [h1]
      have h2 := get_user_append_of_none
        (User.mk user_id name now 0 0 0 0)
        (SettingsRow.mk user_id defaults) h0 (by simp)
      unfold create_new_user
      rw [h2]

/-- A defaults service returning zero for every parameter. -/
def defaults0 : String → Int := fun _ => 0

/-- C9 witness: registering id 9 on `store7` adds one user row, and doing
it again (with a different name and timestamp) is a no-op. -/
theorem create_new_user_idempotent_witness :
    get_user store7 9 = none ∧
    (create_new_user defaults0 11 store7 9 "bob").users =
      store7.users ++ [{ user_id := 9, name := "bob", created_time := 11 }] ∧
    create_new_user defaults0 12
        (create_new_user defaults0 11 store7 9 "bob") 9 "eve" =
      create_new_user defaults0 11 store7 9 "bob" :=
  ⟨rfl,
    ((create_new_user_idempotent defaults0 11 12 store7 9 "bob" "eve").2.1
      rfl).1,
    (create_new_user_idempotent defaults0 11 12 store7 9 "bob" "eve").2.2⟩

/-- On a list of pairs with pairwise-distinct keys, looking a member's key
up finds exactly that member. -/
theorem find?_key_nodup (l : List (String × Int))
    (hnd : (l.map Prod.fst).Nodup) (kv : String × Int) (hm : kv ∈ l) :
    l.find? (fun x => x.1 == kv.1) = some kv := by
  induction l with
  | nil => cases hm
  | cons a t ih =>
    rw [List.map_cons, List.nodup_cons] at hnd
    obtain ⟨ha, ht⟩ := hnd
    rcases List.mem_cons.mp hm with rfl | hmt
    · rw [List.find?_cons_of_pos]
      simp
    · rw [List.find?_cons_of_neg, ih ht hmt]
      have hne : a.1 ≠ kv.1 :=
        fun hcon => ha (hcon ▸ List.mem_map.mpr ⟨kv, hmt, rfl⟩)
      simpa using hne

/-- C7: `update_settings` clamps every supplied parameter that the limits
response covers into `[min, max]` (keys untouched), passes parameters the
response omits through unchanged, and the map it returns is exactly what it
writes to the user's `Settings` row (other keys keep their old values). -/
theorem update_settings_clamps (limits : String → Option (Int × Int))
    (s : Store) (u : Nat) (params : List (String × Int)) :
    (update_settings limits s u params).1 =
      params.map (clampParam limits) ∧
    (∀ kv : String × Int, (clampParam limits kv).1 = kv.1) ∧
    (∀ kv : String × Int, ∀ lo hi, limits kv.1 = some (lo, hi) → lo ≤ hi →
      lo ≤ (clampParam limits kv).2 ∧ (clampParam limits kv).2 ≤ hi) ∧
    (∀ kv : String × Int, limits kv.1 = none → clampParam limits kv = kv) ∧
    ((params.map Prod.fst).Nodup →
      ∀ row, get_settings s u = some row →
        ∃ row1,
          get_settings (update_settings limits s u params).2 u = some row1 ∧
          (∀ kv ∈ (update_settings limits s u params).1,
            row1.params kv.1 = kv.2) ∧
          (∀ k : String, k ∉ params.map Prod.fst →
            row1.params k = row.params k)) := by
  refine ⟨rfl, ?_, ?_, ?_, ?_⟩
  · intro kv
    cases h : limits kv.1 with
    | none => simp [clampParam, h]
    | some p =>
      obtain ⟨lo, hi⟩ := p
      simp [clampParam, h]
  · intro kv lo hi hl hlh
    simp only [clampParam, hl]
    constructor
    · exact le_max_right _ _
    · exact max_le (le_trans (min_le_right _ _) le_rfl) hlh
  · intro kv hl
    simp [clampParam, hl]
  · intro hnd row hrow
    have hrowid : (row.user_id == u) = true := by
      have h2 := List.find?_some
        (show s.settings.find? (fun x => x.user_id == u) = some row from by
          simpa [get_settings] using hrow)
      exact h2
    have hfst : ∀ kv0 : String × Int, (clampParam limits kv0).1 = kv0.1 := by
      intro kv0
      cases h : limits kv0.1 with
      | none => simp [clampParam, h]
      | some p =>
        obtain ⟨lo, hi⟩ := p
        simp [clampParam, h]
    refine ⟨{ row with params := fun k =>
        match (params.map (clampParam limits)).find? (fun kv => kv.1 == k) with
        | some kv => kv.2
        | none => row.params k }, ?_, ?_, ?_⟩
    · have hgen := get_settings_after_update s u
        (fun x =>
          if x.user_id == u then
            { x with params := fun k =>
                match (params.map (clampParam limits)).find? (fun kv => kv.1 == k) with
                | some kv => kv.2
                | none => x.params k }
          else x)
        (fun x => by
          dsimp only
          by_cases hx : (x.user_id == u) = true
          · rw [if_pos hx]
          · rw [if_neg hx])
        row hrow
      dsimp only at hgen
      rw [if_pos hrowid] at hgen
      exact hgen
    · intro kv hkv
      have hkv2 : kv ∈ params.map (clampParam limits) := hkv
      have hkeys : ((params.map (clampParam limits)).map Prod.fst).Nodup := by
        have hcomp : (params.map (clampParam limits)).map Prod.fst =
            params.map Prod.fst := by
          rw [List.map_map]
          exact List.map_congr_left fun kv0 _ => hfst kv0
        rw [hcomp]
        exact hnd
      show (match (params.map (clampParam limits)).find? (fun x => x.1 == kv.1) with
        | some kv2 => kv2.2
        | none => row.params kv.1) = kv.2
      rw [find?_key_nodup _ hkeys kv hkv2]
    · intro k hk
      have hnone : (params.map (clampParam limits)).find?
          (fun kv => kv.1 == k) = none := by
        rw [List.find?_eq_none]
        intro kv hkv hcon
        apply hk
        have hk1 : kv.1 = k := by simpa using hcon
        rcases List.mem_map.mp hkv with ⟨kv0, hkv0, rfl⟩
        rw [← hk1, hfst kv0]
        exact List.mem_map.mpr ⟨kv0, hkv0, rfl⟩
      show (match (params.map (clampParam limits)).find? (fun kv => kv.1 == k) with
        | some kv2 => kv2.2
        | none => row.params k) = row.params k
      rw [hnone]

/-- A limits service bounding only the `depth` parameter. -/
def limits0 : String → Option (Int × Int) :=
  fun k => if k = "depth" then some (2, 20) else none

/-- C7 witness: `depth` is clamped into `[2, 20]`; `colors`, absent from
the limits response, passes through unchanged. -/
theorem update_settings_clamps_witness :
    limits0 "depth" = some (2, 20) ∧ (2 : Int) ≤ 20 ∧
    (2 : Int) ≤ (clampParam limits0 ("depth", 99)).2 ∧
    (clampParam limits0 ("depth", 99)).2 ≤ 20 ∧
    limits0 "colors" = none ∧
    clampParam limits0 ("colors", 5) = ("colors", 5) :=
  ⟨rfl, by decide,
    ((update_settings_clamps limits0 store7 7 [("depth", 99)]).2.2.1
      ("depth", 99) 2 20 rfl (by decide)).1,
    ((update_settings_clamps limits0 store7 7 [("depth", 99)]).2.2.1
      ("depth", 99) 2 20 rfl (by decide)).2,
    rfl,
    (update_settings_clamps limits0 store7 7 [("depth", 99)]).2.2.2.1
      ("colors", 5) rfl⟩

theorem leUser_trans : ∀ a b c : User,
    leUser a b → leUser b c → leUser a c := by
  intro a b c hab hbc
  simp only [leUser, Bool.or_eq_true, Bool.and_eq_true, Nat.blt_eq,
    Nat.ble_eq, beq_iff_eq] at hab hbc ⊢
  omega

theorem leUser_total : ∀ a b : User, leUser a b || leUser b a := by
  intro a b
  simp only [leUser, Bool.or_eq_true, Bool.and_eq_true, Nat.blt_eq,
    Nat.ble_eq, beq_iff_eq]
  omega

theorem pythonRound_zero : pythonRound 0 = 0 := by
  norm_num [pythonRound]

/-- C8: the leaderboard lists at most `topN` entries, obtained from the
users sorted by `total_wins` descending with ties broken by earlier
`created_time`; each entry's win rate is `round(wins / max(games, 1) * 100)`
and a user with zero games (whose counters respect the sum invariant) gets
rate 0 with no division by zero. -/
theorem get_global_statistic_spec (topN : Nat) (s : Store) :
    (get_global_statistic topN s).length ≤ topN ∧
    get_global_statistic topN s =
      ((s.users.mergeSort leUser).take topN).map mkStatEntry ∧
    ((s.users.mergeSort leUser).take topN).Pairwise (fun a b =>
      b.total_wins < a.total_wins ∨
        (a.total_wins = b.total_wins ∧
          a.created_time ≤ b.created_time)) ∧
    (get_global_statistic topN s).Pairwise
      (fun e1 e2 => e2.total_wins ≤ e1.total_wins) ∧
    (∀ user : User, (mkStatEntry user).win_rate =
      pythonRound ((user.total_wins : ℚ) /
        ((max user.total_games 1 : ℕ) : ℚ) * 100)) ∧
    (∀ user : User,
      user.total_games =
        user.total_wins + user.total_defeats + user.total_draws →
      user.total_games = 0 → (mkStatEntry user).win_rate = 0) := by
  have hsorted : (s.users.mergeSort leUser).Pairwise
      (fun a b => leUser a b = true) :=
    List.sorted_mergeSort leUser_trans leUser_total s.users
  have hpw := List.Pairwise.sublist
    (List.take_sublist topN (s.users.mergeSort leUser)) hsorted
  refine ⟨?_, rfl, ?_, ?_, ?_, ?_⟩
  · simp only [get_global_statistic, List.length_map, List.length_take]
    omega
  · refine hpw.imp ?_
    intro a b hab
    simp only [leUser, Bool.or_eq_true, Bool.and_eq_true, Nat.blt_eq,
      Nat.ble_eq, beq_iff_eq] at hab
    exact hab
  · rw [get_global_statistic]
    refine hpw.map mkStatEntry ?_
    intro a b hab
    simp only [leUser, Bool.or_eq_true, Bool.and_eq_true, Nat.blt_eq,
      Nat.ble_eq, beq_iff_eq] at hab
    simp only [mkStatEntry]
    omega
  · intro user
    have hden : (if user.total_games = 0 then (1 : ℚ)
        else (user.total_games : ℚ)) =
        ((max user.total_games 1 : ℕ) : ℚ) := by
      by_cases hga : user.total_games = 0
      · simp [hga]
      · have hm : max user.total_games 1 = user.total_games := by omega
        simp [hga, hm]
    simp only [mkStatEntry]
    rw [hden]
  · intro user hsum hzero
    have hw : user.total_wins = 0 := by omega
    simp only [mkStatEntry, hzero, hw]
    norm_num
    exact pythonRound_zero

/-- A user with no games played yet. -/
def user9 : User := { user_id := 9, name := "zoe", created_time := 3 }

/-- C8 witness: `user9` has zero games, its counters satisfy the sum
invariant, and its leaderboard win rate is 0. -/
theorem get_global_statistic_spec_witness :
    user9.total_games =
      user9.total_wins + user9.total_defeats + user9.total_draws ∧
    user9.total_games = 0 ∧
    (mkStatEntry user9).win_rate = 0 :=
  ⟨rfl, rfl, (get_global_statistic_spec 10 store7).2.2.2.2.2 user9 rfl rfl⟩

end ChessStats
